import Mathlib

/-!
Verification development for the freegeoip-dns server (a DNS server answering
TXT queries with geolocation data).  The definitions below are a shallow
embedding of the Go source: the maxmind `Query` record, the `response`
formatter, the `roundFloat` helper, the `openDB` data-source classification,
the `queryIP` target resolution and the `ServeDNS` request handler (the
latter following the variant that checks the database lookup error and
answers SERVFAIL).  External collaborators (the geo database, `net.ParseIP`,
`net.LookupIP`, `rand.Intn`, `url.Parse`) are passed in as explicit function
parameters.  Go float64 coordinate values are modelled as exact rationals;
`strconv.FormatFloat(v, 'f', 2, 64)` is modelled as correct rounding at two
decimal places with ties to even, which is the rounding Go applies to the
stored value, with the sign formatted separately.
-/

/-- Reading a Go `map[string]string`: a missing key yields the zero value `""`. -/
def mapGet (m : List (String × String)) (k : String) : String :=
  match m.lookup k with
  | some v => v
  | none => ""

/-- Executable floor on rationals; agrees with the mathematical floor. -/
def ratFloor (q : ℚ) : ℤ :=
  q.num / (q.den : ℤ)

/-- Executable ceiling on rationals; agrees with the mathematical ceiling. -/
def ratCeil (q : ℚ) : ℤ :=
  -(ratFloor (-q))

/-- Rounding to the nearest integer with ties to even, the rule Go uses when
printing a stored binary value at a fixed decimal precision. -/
def roundHalfEven (q : ℚ) : ℤ :=
  let f := ratFloor q
  let r := q - (f : ℚ)
  if r < mkRat 1 2 then f
  else if mkRat 1 2 < r then f + 1
  else if f % 2 = 0 then f else f + 1

/-- Two-digit decimal rendering with a leading zero. -/
def pad2 (n : ℕ) : String :=
  if n < 10 then "0" ++ toString n else toString n

/-- Shallow embedding of `strconv.FormatFloat(v, 'f', 2, 64)`: the magnitude
is correctly rounded at two decimal places (ties to even) and the sign is
prepended, exactly as Go formats the stored value. -/
def formatFixed2 (q : ℚ) : String :=
  let sign := if q < 0 then "-" else ""
  let m := (roundHalfEven ((if q < 0 then -q else q) * 100)).toNat
  sign ++ toString (m / 100) ++ "." ++ pad2 (m % 100)

/-- Fractional part returned by Go `math.Modf`: the integer part is truncated
toward zero, so the fraction carries the sign of the input. -/
def modfFrac (q : ℚ) : ℚ :=
  q - ((if 0 ≤ q then ratFloor q else ratCeil q : ℤ) : ℚ)

/-- Embedding of `roundFloat` from main.go: scale by `10^places`, take the
`math.Modf` fractional part, `math.Ceil` when it is at least `roundOn` and
`math.Floor` otherwise, then scale back. -/
def roundFloat (val roundOn : ℚ) (places : ℕ) : ℚ :=
  let pow : ℚ := (10 : ℚ) ^ places
  let digit : ℚ := pow * val
  let div : ℚ := modfFrac digit
  let round : ℤ := if roundOn ≤ div then ratCeil digit else ratFloor digit
  (round : ℚ) / pow

/-- Country block of the maxmind `Query` struct. -/
structure QCountry where
  ISOCode : String
  Names : List (String × String)

/-- One subdivision entry of the maxmind `Query` struct. -/
structure QRegion where
  ISOCode : String
  Names : List (String × String)

/-- City block of the maxmind `Query` struct. -/
structure QCity where
  Names : List (String × String)

/-- Location block of the maxmind `Query` struct; coordinates are modelled
as exact rationals and the metro code as a natural number. -/
structure QLocation where
  Latitude : ℚ
  Longitude : ℚ
  MetroCode : ℕ
  TimeZone : String

/-- Postal block of the maxmind `Query` struct. -/
structure QPostal where
  Code : String

/-- The maxmind `Query` record filled by a database lookup. -/
structure Query where
  Country : QCountry
  Region : List QRegion
  City : QCity
  Location : QLocation
  Postal : QPostal

/-- The ordered field list built by `response` in main.go: IP string, country
ISO code and localized country name; then, only when the subdivision list is
nonempty, the first subdivision ISO code and localized name; then city name,
postal code, timezone, latitude and longitude formatted with two decimals,
and the metro code. -/
def responseFields (query : Query) (ipStr : String) (lang : String) : List String :=
  let ret : List String := [ipStr, query.Country.ISOCode, mapGet query.Country.Names lang]
  let ret : List String :=
    match query.Region with
    | [] => ret
    | r :: _ => ret ++ [r.ISOCode, mapGet r.Names lang]
  ret ++ [mapGet query.City.Names lang, query.Postal.Code, query.Location.TimeZone,
    formatFixed2 query.Location.Latitude, formatFixed2 query.Location.Longitude,
    toString query.Location.MetroCode]

/-- Embedding of `response` from main.go: the field list joined by the
four-space delimiter, `strings.Join(ret, "    ")`. -/
def response (query : Query) (ipStr : String) (lang : String) : String :=
  String.intercalate "    " (responseFields query ipStr lang)

/-- Scanner for one occurrence of `sep`: true when `sep` occurs as a
contiguous run inside the scanned list. -/
def containsSeq (sep : List Char) : List Char → Bool
  | [] => sep.isEmpty
  | c :: rest => sep.isPrefixOf (c :: rest) || containsSeq sep rest

/-- Fuelled worker for Go `strings.Split` with a nonempty separator: cut at
every occurrence of `sep`, scanning left to right and consuming each matched
separator.  Each step consumes at least one character, so any fuel above the
length of the input makes the zero-fuel case unreachable. -/
def goSplitFuel (sep : List Char) : ℕ → List Char → List (List Char)
  | 0, _ => []
  | _ + 1, [] => [[]]
  | fuel + 1, c :: rest =>
    if sep.isPrefixOf (c :: rest) then
      [] :: goSplitFuel sep fuel (rest.drop (sep.length - 1))
    else
      match goSplitFuel sep fuel rest with
      | [] => [[c]]
      | h :: t => (c :: h) :: t

/-- Embedding of Go `strings.Split(s, sep)`: with an empty separator the
string explodes into characters, otherwise the string is cut around every
occurrence of the separator. -/
def goSplit (s sep : String) : List String :=
  if sep.data.isEmpty then s.data.map (fun c => String.mk [c])
  else (goSplitFuel sep.data (s.data.length + 1) s.data).map String.mk

/-- Token extraction inside `queryIP` in main.go: start from the question
name; when a domain is configured replace it by
`strings.Split(q.Name, "." + domain)[0]`. -/
def extractToken (name domain : String) : String :=
  if domain ≠ "" then (goSplit name ("." ++ domain)).headI else name

/-- A DNS question as used by the handler: name, query type, query class. -/
structure Question where
  Name : String
  Qtype : ℕ
  Qclass : ℕ

/-- An incoming DNS message, reduced to the part the handler reads. -/
structure Msg where
  Question : List Question

/-- Resource record header of the TXT answer. -/
structure RRHeader where
  Name : String
  Rrtype : ℕ
  Class : ℕ
  Ttl : ℕ
  deriving Inhabited, DecidableEq

/-- A TXT resource record: header plus the list of text segments. -/
structure TXTRecord where
  Hdr : RRHeader
  Txt : List String
  deriving Inhabited, DecidableEq

/-- The reply the handler writes: response code and answer section. -/
structure DnsReply where
  Rcode : ℕ
  Answer : List TXTRecord

/-- Constant `dns.TypeTXT` of the miekg dns package. -/
def TypeTXT : ℕ := 16

/-- Constant `dns.ClassINET` of the miekg dns package. -/
def ClassINET : ℕ := 1

/-- Constant `dns.RcodeSuccess`, the code `SetReply` installs. -/
def RcodeSuccess : ℕ := 0

/-- Constant `dns.RcodeServerFailure` (SERVFAIL). -/
def RcodeServerFailure : ℕ := 2

/-- Constant `dns.RcodeNameError` (NXDOMAIN). -/
def RcodeNameError : ℕ := 3

/-- The handler configuration, the `handle` struct minus the database
pointer, which is passed separately as a lookup function. -/
structure Handle where
  silent : Bool
  lang : String
  domain : String

/-- Embedding of `queryIP` from main.go.  `parseIP` models `net.ParseIP`
(`some` exactly on literal IPv4/IPv6 addresses; the address value is carried
in its textual form), `lookupIP` models the external resolver
`net.LookupIP`, and `pick` models `rand.Intn`, which returns a value below
its positive argument. -/
def queryIP (parseIP : String → Option String)
    (lookupIP : String → Except Unit (List String)) (pick : ℕ → ℕ)
    (q : Question) (domain : String) : Option String :=
  let h := extractToken q.Name domain
  match parseIP h with
  | some ip => some ip
  | none =>
    match lookupIP h with
    | .error _ => none
    | .ok ips =>
      if ips.length = 0 then none
      else some (ips.getD (pick ips.length) "")

/-- Result of a parsed URL, reduced to the field `openDB` inspects. -/
structure GoURL where
  Scheme : String

/-- How `openDB` opens the data source: `freegeoip.Open` on a local path, or
`freegeoip.OpenURL` with the update and retry intervals. -/
inductive OpenAction where
  | localPath (path : String)
  | remoteURL (url : String) (updateIntvl maxRetryIntvl : ℤ)
  deriving DecidableEq

/-- Embedding of `openDB` from main.go: parse the dsn with `url.Parse`
(modelled by the `urlParse` parameter); on a parse error or an empty scheme
open the dsn as a local file, otherwise open it as a remote URL with the
update and max-retry intervals. -/
def openDB (urlParse : String → Except Unit GoURL) (dsn : String)
    (updateIntvl maxRetryIntvl : ℤ) : OpenAction :=
  match urlParse dsn with
  | .error _ => .localPath dsn
  | .ok u => if u.Scheme.length = 0 then .localPath dsn
             else .remoteURL dsn updateIntvl maxRetryIntvl

/-- The reply `fail` writes: `SetReply` then `m.Rcode = err`, empty answer. -/
def failReply (rcode : ℕ) : DnsReply :=
  { Rcode := rcode, Answer := [] }

/-- Embedding of the body of `ServeDNS` once the first question has been
read, following the source variant that checks the database lookup error
(src/unnamed/part_000): a non-TXT or non-INET question fails with NXDOMAIN;
an unresolvable target fails with NXDOMAIN; a database lookup error fails
with SERVFAIL; otherwise the reply carries one TXT record echoing the
question name with TTL 0 and the formatted response as its single text
segment.  `lookup` models `h.db.Lookup`. -/
def serveDNSQuestion (lookup : String → Except Unit Query)
    (parseIP : String → Option String)
    (lookupIP : String → Except Unit (List String)) (pick : ℕ → ℕ)
    (h : Handle) (q : Question) : DnsReply :=
  if q.Qtype = TypeTXT ∧ q.Qclass = ClassINET then
    match queryIP parseIP lookupIP pick q h.domain with
    | none => failReply RcodeNameError
    | some ip =>
      match lookup ip with
      | .error _ => failReply RcodeServerFailure
      | .ok query =>
        { Rcode := RcodeSuccess,
          Answer := [{ Hdr := { Name := q.Name, Rrtype := TypeTXT,
                                Class := ClassINET, Ttl := 0 },
                       Txt := [response query ip h.lang] }] }
  else failReply RcodeNameError

/-- Embedding of `ServeDNS` on a whole message: the Go code indexes
`r.Question[0]` before any validation, which is out of bounds on an empty
question section; that panic is modelled as `none`. -/
def ServeDNS (lookup : String → Except Unit Query)
    (parseIP : String → Option String)
    (lookupIP : String → Except Unit (List String)) (pick : ℕ → ℕ)
    (h : Handle) (r : Msg) : Option DnsReply :=
  match r.Question with
  | [] => none
  | q :: _ => some (serveDNSQuestion lookup parseIP lookupIP pick h q)

/-- Sample subdivision entry resembling the California line of the README. -/
def regionCA : QRegion :=
  { ISOCode := "CA", Names := [("en", "California")] }

/-- Sample record with one subdivision, resembling the San Francisco example
of the README. -/
def sampleWithRegion : Query :=
  { Country := { ISOCode := "US", Names := [("en", "United States")] }
    Region := [regionCA]
    City := { Names := [("en", "San Francisco")] }
    Location := { Latitude := mkRat 37774929 1000000
                  Longitude := mkRat (-122419416) 1000000
                  MetroCode := 807, TimeZone := "America/Los_Angeles" }
    Postal := { Code := "94107" } }

/-- Sample record without a subdivision, resembling the Argentina example of
the README. -/
def sampleNoRegion : Query :=
  { Country := { ISOCode := "AR", Names := [("en", "Argentina")] }
    Region := []
    City := { Names := [] }
    Location := { Latitude := mkRat (-34) 1, Longitude := mkRat (-64) 1
                  MetroCode := 0, TimeZone := "" }
    Postal := { Code := "" } }

/-- Sample record without a subdivision whose latitude 1.8746 rounds, at
three decimal places, onto the exactly representable tie value 1.875. -/
def sampleTie : Query :=
  { Country := { ISOCode := "US", Names := [("en", "United States")] }
    Region := []
    City := { Names := [] }
    Location := { Latitude := mkRat 9373 5000, Longitude := mkRat 0 1
                  MetroCode := 0, TimeZone := "" }
    Postal := { Code := "" } }

/-- Oracle modelling net.ParseIP on tokens that are literal addresses. -/
def parseAll : String → Option String :=
  fun s => some s

/-- Oracle modelling net.ParseIP on tokens that are not literal addresses. -/
def parseNone : String → Option String :=
  fun _ => none

/-- Resolver oracle that fails with an error. -/
def resolverErr : String → Except Unit (List String) :=
  fun _ => .error ()

/-- Resolver oracle that succeeds with zero addresses. -/
def resolverEmpty : String → Except Unit (List String) :=
  fun _ => .ok []

/-- Resolver oracle that succeeds with two addresses. -/
def resolverTwo : String → Except Unit (List String) :=
  fun _ => .ok ["9.9.9.9", "8.8.8.8"]

/-- Database oracle whose lookup always fails. -/
def dbErr : String → Except Unit Query :=
  fun _ => .error ()

/-- Database oracle answering every lookup with the San Francisco record. -/
def dbSF : String → Except Unit Query :=
  fun _ => .ok sampleWithRegion

/-- Random index oracle that always draws zero. -/
def pickZero : ℕ → ℕ :=
  fun _ => 0

/-- Random index oracle that always draws one. -/
def pickOne : ℕ → ℕ :=
  fun _ => 1

/-- Sample handle configured with the freegeoip domain. -/
def handleGeo : Handle :=
  { silent := false, lang := "en", domain := "freegeoip" }

/-- Sample TXT INET question embedding a literal IP under the domain. -/
def questionIP : Question :=
  { Name := "192.30.252.129.freegeoip.", Qtype := 16, Qclass := 1 }

/-- Sample question with type A instead of TXT. -/
def questionA : Question :=
  { Name := "192.30.252.129.freegeoip.", Qtype := 1, Qclass := 1 }

/-- URL parser oracle answering with the http scheme. -/
def urlParseHTTP : String → Except Unit GoURL :=
  fun _ => .ok { Scheme := "http" }

/-- URL parser oracle answering with an empty scheme, as url.Parse does on a
bare filesystem path. -/
def urlParseRel : String → Except Unit GoURL :=
  fun _ => .ok { Scheme := "" }

theorem ratFloor_eq (q : ℚ) : ratFloor q = ⌊q⌋ :=
  Rat.floor_def.symm

theorem ratCeil_eq (q : ℚ) : ratCeil q = ⌈q⌉ := by
  rw [ratCeil, ratFloor_eq, ← Int.ceil_neg, neg_neg]

/-- C1: the claim says a record without a subdivision formats to exactly 8
fields; the code emits 9 (IP, country ISO, country name, city, postal,
timezone, latitude, longitude, metro code), shown here on a concrete
record. -/
theorem claim_C1_counterexample :
    (responseFields sampleNoRegion "2800:3f0:4003:c00::8b" "en").length = 9 ∧
    (responseFields sampleNoRegion "2800:3f0:4003:c00::8b" "en").length ≠ 8 := by
  with_unfolding_all decide

/-- C1 (amended): a record without a subdivision formats to exactly 9 fields
in the documented order, and a record with at least one subdivision to
exactly 11, with the subdivision ISO code and localized name inserted after
the country name. -/
theorem claim_C1_arity (query : Query) (ip lang : String) :
    (query.Region = [] →
      responseFields query ip lang =
        [ip, query.Country.ISOCode, mapGet query.Country.Names lang,
         mapGet query.City.Names lang, query.Postal.Code, query.Location.TimeZone,
         formatFixed2 query.Location.Latitude, formatFixed2 query.Location.Longitude,
         toString query.Location.MetroCode] ∧
      (responseFields query ip lang).length = 9) ∧
    (∀ r rs, query.Region = r :: rs →
      responseFields query ip lang =
        [ip, query.Country.ISOCode, mapGet query.Country.Names lang,
         r.ISOCode, mapGet r.Names lang,
         mapGet query.City.Names lang, query.Postal.Code, query.Location.TimeZone,
         formatFixed2 query.Location.Latitude, formatFixed2 query.Location.Longitude,
         toString query.Location.MetroCode] ∧
      (responseFields query ip lang).length = 11) := by
  constructor
  · intro h
    simp [responseFields, h]
  · intro r rs h
    simp [responseFields, h]

/-- C1 witness: the arity theorem applied to the two sample records. -/
theorem claim_C1_arity_witness :
    (responseFields sampleNoRegion "2800:3f0:4003:c00::8b" "en").length = 9 ∧
    (responseFields sampleWithRegion "192.30.252.129" "en").length = 11 :=
  ⟨((claim_C1_arity sampleNoRegion "2800:3f0:4003:c00::8b" "en").1 rfl).2,
   ((claim_C1_arity sampleWithRegion "192.30.252.129" "en").2 regionCA [] rfl).2⟩

/-- C2: the claim says every coordinate is first rounded half-up at 3
decimal places and then formatted with 2 decimal digits; the code formats
directly without the pre-rounding step, and at latitude 1.8746 the two
pipelines disagree: the emitted field is "1.87" while
round-then-format yields "1.88". -/
theorem claim_C2_counterexample :
    (responseFields sampleTie "1.2.3.4" "en")[6]? = some "1.87" ∧
    formatFixed2 (roundFloat (mkRat 9373 5000) (mkRat 1 2) 3) = "1.88" ∧
    (responseFields sampleTie "1.2.3.4" "en")[6]? ≠
      some (formatFixed2 (roundFloat (mkRat 9373 5000) (mkRat 1 2) 3)) := by
  with_unfolding_all decide

/-- C2 (amended): the formatter renders latitude and longitude directly with
exactly 2 decimal digits and never invokes the 3-decimal rounding helper;
formatting 37.774929 yields "37.77" and formatting -122.419416 yields
"-122.42". -/
theorem claim_C2_format (query : Query) (hr : query.Region = []) (ip lang : String) :
    (responseFields query ip lang)[6]? = some (formatFixed2 query.Location.Latitude) ∧
    (responseFields query ip lang)[7]? = some (formatFixed2 query.Location.Longitude) ∧
    formatFixed2 (mkRat 37774929 1000000) = "37.77" ∧
    formatFixed2 (mkRat (-122419416) 1000000) = "-122.42" := by
  refine ⟨?_, ?_, by with_unfolding_all rfl, by with_unfolding_all rfl⟩
  · simp [responseFields, hr]
  · simp [responseFields, hr]

/-- C2 witness: the format theorem applied to the San Francisco coordinates
on a concrete record without a subdivision. -/
theorem claim_C2_format_witness :
    (responseFields sampleNoRegion "2800:3f0:4003:c00::8b" "en")[6]? =
      some (formatFixed2 sampleNoRegion.Location.Latitude) ∧
    formatFixed2 (mkRat 37774929 1000000) = "37.77" ∧
    formatFixed2 (mkRat (-122419416) 1000000) = "-122.42" :=
  ⟨(claim_C2_format sampleNoRegion rfl "2800:3f0:4003:c00::8b" "en").1,
   (claim_C2_format sampleNoRegion rfl "2800:3f0:4003:c00::8b" "en").2.2.1,
   (claim_C2_format sampleNoRegion rfl "2800:3f0:4003:c00::8b" "en").2.2.2⟩

/-- C3: for a validated TXT INET question whose target resolved, a failing
database lookup makes the handler answer SERVFAIL with no TXT record, and a
reply carrying an answer is only produced when the lookup succeeded. -/
theorem claim_C3_servfail (lookup : String → Except Unit Query)
    (parseIP : String → Option String) (lookupIP : String → Except Unit (List String))
    (pick : ℕ → ℕ) (h : Handle) (q : Question)
    (h1 : q.Qtype = TypeTXT) (h2 : q.Qclass = ClassINET) (ip : String)
    (hip : queryIP parseIP lookupIP pick q h.domain = some ip) :
    (lookup ip = .error () →
      serveDNSQuestion lookup parseIP lookupIP pick h q = failReply RcodeServerFailure ∧
      (serveDNSQuestion lookup parseIP lookupIP pick h q).Answer = []) ∧
    ((serveDNSQuestion lookup parseIP lookupIP pick h q).Answer ≠ [] →
      ∃ rec, lookup ip = .ok rec) := by
  constructor
  · intro hl
    constructor <;> simp [serveDNSQuestion, h1, h2, hip, hl, failReply]
  · intro ha
    cases hl : lookup ip with
    | error e =>
      cases e
      exact absurd (by simp [serveDNSQuestion, h1, h2, hip, hl, failReply]) ha
    | ok rec => exact ⟨rec, rfl⟩

/-- C3 witness: a database that fails every lookup turns a resolved literal
IP question into a SERVFAIL reply. -/
theorem claim_C3_servfail_witness :
    serveDNSQuestion dbErr parseAll resolverErr pickZero handleGeo questionIP =
      failReply RcodeServerFailure :=
  ((claim_C3_servfail dbErr parseAll resolverErr pickZero handleGeo questionIP rfl rfl
      "192.30.252.129" (by with_unfolding_all rfl)).1 rfl).1

/-- C4: a question whose type is not TXT or whose class is not INET is
answered NXDOMAIN whatever its name; the conclusion holds for every parse,
resolver and database oracle, so no target extraction influences it. -/
theorem claim_C4_nxdomain (lookup : String → Except Unit Query)
    (parseIP : String → Option String) (lookupIP : String → Except Unit (List String))
    (pick : ℕ → ℕ) (h : Handle) (q : Question)
    (hq : q.Qtype ≠ TypeTXT ∨ q.Qclass ≠ ClassINET) :
    serveDNSQuestion lookup parseIP lookupIP pick h q = failReply RcodeNameError := by
  have hcond : ¬(q.Qtype = TypeTXT ∧ q.Qclass = ClassINET) := by
    rintro ⟨hh1, hh2⟩
    cases hq with
    | inl hx => exact hx hh1
    | inr hx => exact hx hh2
  simp [serveDNSQuestion, hcond]

/-- C4 witness: an A question is answered NXDOMAIN. -/
theorem claim_C4_nxdomain_witness :
    serveDNSQuestion dbSF parseAll resolverErr pickZero handleGeo questionA =
      failReply RcodeNameError :=
  claim_C4_nxdomain dbSF parseAll resolverErr pickZero handleGeo questionA
    (Or.inl (by decide))

/-- C9: the success reply carries exactly one TXT record whose header name
is the original question name with TTL 0, and whose text payload is the
single formatted response string. -/
theorem claim_C9_answer (lookup : String → Except Unit Query)
    (parseIP : String → Option String) (lookupIP : String → Except Unit (List String))
    (pick : ℕ → ℕ) (h : Handle) (q : Question)
    (h1 : q.Qtype = TypeTXT) (h2 : q.Qclass = ClassINET) (ip : String)
    (hip : queryIP parseIP lookupIP pick q h.domain = some ip)
    (rec : Query) (hl : lookup ip = .ok rec) :
    serveDNSQuestion lookup parseIP lookupIP pick h q =
      { Rcode := RcodeSuccess
        Answer := [{ Hdr := { Name := q.Name, Rrtype := TypeTXT, Class := ClassINET, Ttl := 0 }
                     Txt := [response rec ip h.lang] }] } := by
  simp [serveDNSQuestion, h1, h2, hip, hl]

/-- C9 witness: the answer theorem applied to a literal IP question against
the San Francisco record. -/
theorem claim_C9_answer_witness :
    serveDNSQuestion dbSF parseAll resolverErr pickZero handleGeo questionIP =
      { Rcode := RcodeSuccess
        Answer := [{ Hdr := { Name := "192.30.252.129.freegeoip.", Rrtype := TypeTXT,
                              Class := ClassINET, Ttl := 0 }
                     Txt := [response sampleWithRegion "192.30.252.129" "en"] }] } :=
  claim_C9_answer dbSF parseAll resolverErr pickZero handleGeo questionIP rfl rfl
    "192.30.252.129" (by with_unfolding_all rfl) sampleWithRegion rfl

/-- C10: the handler reads the first element of the question list before any
validation, so it produces a reply exactly when the message carries at least
one question; on an empty question section the out-of-bounds access is
modelled as the absence of any reply. -/
theorem claim_C10_question (lookup : String → Except Unit Query)
    (parseIP : String → Option String) (lookupIP : String → Except Unit (List String))
    (pick : ℕ → ℕ) (h : Handle) (r : Msg) :
    (r.Question = [] → ServeDNS lookup parseIP lookupIP pick h r = none) ∧
    (r.Question ≠ [] → ∃ rep, ServeDNS lookup parseIP lookupIP pick h r = some rep) := by
  constructor
  · intro he
    simp [ServeDNS, he]
  · intro hne
    cases hr : r.Question with
    | nil => exact absurd hr hne
    | cons q qs =>
      exact ⟨serveDNSQuestion lookup parseIP lookupIP pick h q, by simp [ServeDNS, hr]⟩

/-- C10 witness: no reply on an empty question section, a reply on a
singleton one. -/
theorem claim_C10_question_witness :
    ServeDNS dbSF parseAll resolverErr pickZero handleGeo { Question := [] } = none ∧
    ∃ rep, ServeDNS dbSF parseAll resolverErr pickZero handleGeo
      { Question := [questionIP] } = some rep :=
  ⟨(claim_C10_question dbSF parseAll resolverErr pickZero handleGeo
      { Question := [] }).1 rfl,
   (claim_C10_question dbSF parseAll resolverErr pickZero handleGeo
      { Question := [questionIP] }).2 (by simp)⟩

/-- C6: a token parsing as a literal address is used directly and the
resolver is never consulted (the result is the same under every resolver);
otherwise the resolver is consulted, an error or an empty address list makes
the request fail NXDOMAIN, and a nonempty list yields the address at the
index drawn by the random source, which is an element of the list. -/
theorem claim_C6_resolution (lookup : String → Except Unit Query)
    (parseIP : String → Option String) (lookupIP : String → Except Unit (List String))
    (pick : ℕ → ℕ) (h : Handle) (q : Question) :
    (∀ ip, parseIP (extractToken q.Name h.domain) = some ip →
      queryIP parseIP lookupIP pick q h.domain = some ip ∧
      ∀ lookupIP2, queryIP parseIP lookupIP2 pick q h.domain = some ip) ∧
    (parseIP (extractToken q.Name h.domain) = none →
      (lookupIP (extractToken q.Name h.domain) = .error () →
        queryIP parseIP lookupIP pick q h.domain = none ∧
        (q.Qtype = TypeTXT → q.Qclass = ClassINET →
          serveDNSQuestion lookup parseIP lookupIP pick h q = failReply RcodeNameError)) ∧
      (lookupIP (extractToken q.Name h.domain) = .ok [] →
        queryIP parseIP lookupIP pick q h.domain = none ∧
        (q.Qtype = TypeTXT → q.Qclass = ClassINET →
          serveDNSQuestion lookup parseIP lookupIP pick h q = failReply RcodeNameError)) ∧
      (∀ ips, lookupIP (extractToken q.Name h.domain) = .ok ips → ips ≠ [] →
        queryIP parseIP lookupIP pick q h.domain =
          some (ips.getD (pick ips.length) "") ∧
        (pick ips.length < ips.length → ips.getD (pick ips.length) "" ∈ ips))) := by
  refine ⟨?_, ?_⟩
  · intro ip hp
    exact ⟨by simp [queryIP, hp], fun lookupIP2 => by simp [queryIP, hp]⟩
  · intro hp
    refine ⟨?_, ?_, ?_⟩
    · intro hres
      have hq : queryIP parseIP lookupIP pick q h.domain = none := by
        simp [queryIP, hp, hres]
      exact ⟨hq, fun h1 h2 => by simp [serveDNSQuestion, h1, h2, hq]⟩
    · intro hres
      have hq : queryIP parseIP lookupIP pick q h.domain = none := by
        simp [queryIP, hp, hres]
      exact ⟨hq, fun h1 h2 => by simp [serveDNSQuestion, h1, h2, hq]⟩
    · intro ips hres hne
      refine ⟨by simp [queryIP, hp, hres, List.length_eq_zero.not.mpr hne], ?_⟩
      intro hlt
      have : ips.getD (pick ips.length) "" = ips[pick ips.length] := by
        simp [List.getD_eq_getElem?_getD, List.getElem?_eq_getElem hlt]
      rw [this]
      exact List.getElem_mem hlt

/-- C6 witness: with a resolver returning two addresses and a random source
drawing index one, the second address is selected and belongs to the list. -/
theorem claim_C6_resolution_witness :
    queryIP parseNone resolverTwo pickOne questionIP handleGeo.domain =
      some "8.8.8.8" ∧ ("8.8.8.8" : String) ∈ ["9.9.9.9", "8.8.8.8"] := by
  have hmain := ((claim_C6_resolution dbSF parseNone resolverTwo pickOne handleGeo
      questionIP).2 rfl).2.2 ["9.9.9.9", "8.8.8.8"] rfl (by simp)
  exact ⟨hmain.1, hmain.2 (by decide)⟩

/-- C7: the claim says joined and segmented delivery are both available as a
configuration choice; the handle configuration has no such choice and the
payload is always a single joined segment: on a record formatting to 11
fields the reply still carries exactly one text segment, not the field
list. -/
theorem claim_C7_counterexample :
    ((serveDNSQuestion dbSF parseAll resolverErr pickZero handleGeo
        questionIP).Answer.headI.Txt).length = 1 ∧
    (responseFields sampleWithRegion "192.30.252.129" "en").length = 11 ∧
    (serveDNSQuestion dbSF parseAll resolverErr pickZero handleGeo
        questionIP).Answer.headI.Txt ≠
      responseFields sampleWithRegion "192.30.252.129" "en" := by
  with_unfolding_all decide

/-- C7 (amended): only the joined mode exists; every success reply delivers
the field list joined by the four-space delimiter as its one text segment,
so the semantic order and values are those of the field list. -/
theorem claim_C7_joined (lookup : String → Except Unit Query)
    (parseIP : String → Option String) (lookupIP : String → Except Unit (List String))
    (pick : ℕ → ℕ) (h : Handle) (q : Question)
    (h1 : q.Qtype = TypeTXT) (h2 : q.Qclass = ClassINET) (ip : String)
    (hip : queryIP parseIP lookupIP pick q h.domain = some ip)
    (rec : Query) (hl : lookup ip = .ok rec) :
    (serveDNSQuestion lookup parseIP lookupIP pick h q).Answer.map (fun a => a.Txt) =
      [[String.intercalate "    " (responseFields rec ip h.lang)]] := by
  simp [serveDNSQuestion, h1, h2, hip, hl, response]

/-- C7 witness: the joined-mode theorem applied to a literal IP question
against the San Francisco record. -/
theorem claim_C7_joined_witness :
    (serveDNSQuestion dbSF parseAll resolverErr pickZero handleGeo
        questionIP).Answer.map (fun a => a.Txt) =
      [[String.intercalate "    " (responseFields sampleWithRegion "192.30.252.129" "en")]] :=
  claim_C7_joined dbSF parseAll resolverErr pickZero handleGeo questionIP rfl rfl
    "192.30.252.129" (by with_unfolding_all rfl) sampleWithRegion rfl

/-- C8: the open step chooses the remote path, with the update and max-retry
intervals, exactly when url.Parse succeeds with a non-empty scheme; every
other string, the malformed ones included, is opened as a local file. -/
theorem claim_C8_openDB (urlParse : String → Except Unit GoURL) (dsn : String)
    (updateIntvl maxRetryIntvl : ℤ) :
    (openDB urlParse dsn updateIntvl maxRetryIntvl =
        .remoteURL dsn updateIntvl maxRetryIntvl ↔
      ∃ u, urlParse dsn = .ok u ∧ u.Scheme ≠ "") ∧
    (openDB urlParse dsn updateIntvl maxRetryIntvl = .localPath dsn ↔
      ∀ u, urlParse dsn = .ok u → u.Scheme = "") := by
  cases hp : urlParse dsn with
  | error e =>
    simp [openDB, hp]
  | ok u =>
    by_cases hs : u.Scheme.length = 0
    · have hs2 : u.Scheme = "" := by
        cases hu : u.Scheme with
        | mk l => cases hl : l with
          | nil => rfl
          | cons a as => rw [hu, hl] at hs; simp [String.length, hl] at hs
      simp [openDB, hp, hs, hs2]
    · have hs2 : u.Scheme ≠ "" := by
        intro hx
        rw [hx] at hs
        exact hs rfl
      simp [openDB, hp, hs, hs2]

/-- C8 witness: an http URL opens remotely with the intervals, a bare path
opens locally. -/
theorem claim_C8_openDB_witness :
    openDB urlParseHTTP "http://geolite.maxmind.com/GeoLite2-City.mmdb.gz" 24 1 =
      .remoteURL "http://geolite.maxmind.com/GeoLite2-City.mmdb.gz" 24 1 ∧
    openDB urlParseRel "/var/db/geo.mmdb" 24 1 = .localPath "/var/db/geo.mmdb" :=
  ⟨(claim_C8_openDB urlParseHTTP "http://geolite.maxmind.com/GeoLite2-City.mmdb.gz"
      24 1).1.mpr ⟨{ Scheme := "http" }, rfl, by decide⟩,
   (claim_C8_openDB urlParseRel "/var/db/geo.mmdb" 24 1).2.mpr
     (fun u hu => by injection hu with hx; rw [← hx])⟩


theorem goSplitFuel_pos (sep : List Char) (fuel : ℕ) (c : Char) (rest : List Char)
    (hp : sep.isPrefixOf (c :: rest) = true) :
    goSplitFuel sep (fuel + 1) (c :: rest) =
      [] :: goSplitFuel sep fuel (rest.drop (sep.length - 1)) := by
  simp [goSplitFuel, hp]

theorem goSplitFuel_neg (sep : List Char) (fuel : ℕ) (c : Char) (rest : List Char)
    (hp : sep.isPrefixOf (c :: rest) = false) :
    goSplitFuel sep (fuel + 1) (c :: rest) =
      match goSplitFuel sep fuel rest with
      | [] => [[c]]
      | h :: t => (c :: h) :: t := by
  simp [goSplitFuel, hp]

theorem prefix_of_prefix_append (l A B : List Char) (h : l <+: A ++ B)
    (hlen : l.length ≤ A.length) : l <+: A := by
  rw [List.prefix_iff_eq_take] at h ⊢
  rw [List.take_append_eq_append_take, Nat.sub_eq_zero_of_le hlen, List.take_zero,
    List.append_nil] at h
  exact h

/-- Key property of the split scanner: when the separator occurs nowhere in
the leading segment, not even overlapping into the separator occurrence that
follows it, the first cut lands exactly after that leading segment. -/
theorem goSplitFuel_head_at_first (sep : List Char) (hsep : sep ≠ []) :
    ∀ (tok : List Char) (fuel : ℕ) (rest : List Char),
      (tok ++ (sep ++ rest)).length < fuel →
      containsSeq sep (tok ++ sep.dropLast) = false →
      ∃ t, goSplitFuel sep fuel (tok ++ (sep ++ rest)) = tok :: t := by
  intro tok
  induction tok with
  | nil =>
    intro fuel rest hfuel _
    obtain ⟨f, rfl⟩ : ∃ f, fuel = f + 1 := ⟨fuel - 1, by omega⟩
    obtain ⟨c, sep2, rfl⟩ : ∃ c sep2, sep = c :: sep2 := by
      cases sep with
      | nil => exact absurd rfl hsep
      | cons a b => exact ⟨a, b, rfl⟩
    have hp : (c :: sep2).isPrefixOf (c :: (sep2 ++ rest)) = true :=
      List.isPrefixOf_iff_prefix.mpr
        (by rw [← List.cons_append]; exact List.prefix_append (c :: sep2) rest)
    refine ⟨goSplitFuel (c :: sep2) f ((sep2 ++ rest).drop ((c :: sep2).length - 1)), ?_⟩
    rw [List.nil_append, List.cons_append, goSplitFuel_pos (c :: sep2) f c (sep2 ++ rest) hp]
  | cons c tok2 ih =>
    intro fuel rest hfuel hocc
    obtain ⟨f, rfl⟩ : ∃ f, fuel = f + 1 := ⟨fuel - 1, by omega⟩
    rw [List.cons_append, containsSeq, Bool.or_eq_false_iff] at hocc
    obtain ⟨h1, h2⟩ := hocc
    have hsepsplit : sep ++ rest = sep.dropLast ++ (sep.getLast hsep :: rest) := by
      conv_lhs => rw [← List.dropLast_append_getLast hsep]
      simp [List.append_assoc]
    have hneg : sep.isPrefixOf (c :: (tok2 ++ (sep ++ rest))) = false := by
      by_contra hptrue
      rw [Bool.not_eq_false] at hptrue
      have hpre : sep <+: c :: (tok2 ++ (sep ++ rest)) :=
        List.isPrefixOf_iff_prefix.mp hptrue
      have hABsplit : c :: (tok2 ++ (sep ++ rest)) =
          (c :: (tok2 ++ sep.dropLast)) ++ ([sep.getLast hsep] ++ rest) := by
        simp only [List.cons_append, List.append_assoc, List.nil_append]
        rw [hsepsplit]
      rw [hABsplit] at hpre
      have hlsep : 1 ≤ sep.length := by
        cases sep with
        | nil => exact absurd rfl hsep
        | cons a b => simp
      have hlen : sep.length ≤ (c :: (tok2 ++ sep.dropLast)).length := by
        simp [List.length_dropLast]
        omega
      have hsA : sep.isPrefixOf (c :: (tok2 ++ sep.dropLast)) = true := by
        rw [List.isPrefixOf_iff_prefix]
        exact prefix_of_prefix_append sep _ _ hpre hlen
      rw [h1] at hsA
      exact Bool.false_ne_true hsA
    rw [List.cons_append, goSplitFuel_neg sep f c (tok2 ++ (sep ++ rest)) hneg]
    have hfuel2 : (tok2 ++ (sep ++ rest)).length < f := by
      simp only [List.cons_append, List.length_cons, List.length_append] at hfuel
      simp only [List.length_append]
      omega
    obtain ⟨t, ht⟩ := ih f rest hfuel2 h2
    refine ⟨t, ?_⟩
    rw [ht]

/-- C5: the claim says the token is the question name with its trailing dot
removed when no domain is configured, and the name with exactly the trailing
domain suffix stripped otherwise; the code keeps the trailing dot when no
domain is set, and with a domain it cuts at the first occurrence of the dot
plus domain, not at the trailing one. -/
theorem claim_C5_counterexample :
    extractToken "google.com." "" = "google.com." ∧
    ("google.com." : String) ≠ "google.com" ∧
    extractToken "foo.freegeoip.bar.freegeoip." "freegeoip" = "foo" ∧
    ("foo" : String) ≠ "foo.freegeoip.bar" := by
  with_unfolding_all decide

/-- C5 (amended): with no configured domain the token is the full question
name, trailing dot included; with a configured domain, whenever the name
decomposes as token, dot, domain, remainder with no earlier occurrence of
the dot-domain separator (not even one overlapping the decomposition
point), the extracted token is exactly the part before that first
occurrence, so in the intended layout the labels left of the trailing
`.domain.` suffix. -/
theorem claim_C5_token (name tok domain rest : String) :
    (extractToken name "" = name) ∧
    (domain ≠ "" → name = tok ++ "." ++ domain ++ rest →
      containsSeq ('.' :: domain.data) (tok.data ++ ('.' :: domain.data).dropLast) = false →
      extractToken name domain = tok) := by
  constructor
  · simp [extractToken]
  · intro hdom hname hocc
    have hsep : ('.' :: domain.data) ≠ [] := by simp
    have hdata : ("." ++ domain).data = '.' :: domain.data := by
      rw [String.data_append]
      rfl
    have hnd : name.data = tok.data ++ (('.' :: domain.data) ++ rest.data) := by
      rw [hname]
      simp [String.data_append]
    have hee : extractToken name domain = (goSplit name ("." ++ domain)).headI := by
      simp [extractToken, hdom]
    rw [hee, goSplit, hdata]
    simp only [List.isEmpty_cons, Bool.false_eq_true, if_false]
    obtain ⟨t, ht⟩ := goSplitFuel_head_at_first ('.' :: domain.data) hsep tok.data
      ((tok.data ++ (('.' :: domain.data) ++ rest.data)).length + 1) rest.data
      (Nat.lt_succ_self _) hocc
    rw [hnd, ht]
    rfl

/-- C5 witness: the token theorem applied to the README example name under
the freegeoip domain, and to a hostname query without a domain. -/
theorem claim_C5_token_witness :
    extractToken "google.com." "" = "google.com." ∧
    extractToken "192.30.252.129.freegeoip." "freegeoip" = "192.30.252.129" :=
  ⟨(claim_C5_token "google.com." "google.com." "" "").1,
   (claim_C5_token "192.30.252.129.freegeoip." "192.30.252.129" "freegeoip" ".").2
     (by decide) (by with_unfolding_all rfl) (by with_unfolding_all rfl)⟩
